import Mathlib

/-!
Shallow embedding of `src/autokaggle/preprocessor.py` (the tabular
feature-engineering pipeline): the `TabularData` column registry, its
mutation primitive `update`, the `Primitive` fit/transform contract, and
the concrete transformers the claims refer to (Imputation, CatEncoder,
TargetEncoder, LogTransform, FilterConstant).

Modelling conventions:
* A pandas cell is `Val := Option ℚ`; `none` models NaN / a missing value.
* A pandas Index label is either an integer (the default RangeIndex a
  DataFrame built from a numpy array gets) or a string (column ids are the
  stringified positional indices and later synthesized names).
* Fallible pandas operations (label lookups that can raise KeyError,
  length-checked assignment) return `Except String`.
-/

/-- A pandas cell value; `none` is NaN. -/
abbrev Val := Option ℚ

/-- A pandas Index label: integer labels (default RangeIndex rows) or
string labels (column ids). -/
inductive Label where
  | i : ℤ → Label
  | s : String → Label
deriving DecidableEq, Repr

/-- A pandas DataFrame: a row index plus ordered named columns.  Every
column value list has the same length as the index. -/
structure DF where
  index : List Label
  cols : List (String × List Val)
deriving DecidableEq, Repr

namespace DF

/-- The list of column labels, `df.columns`. -/
def colNames (df : DF) : List String := df.cols.map Prod.fst

/-- Source: `df[name]` for a single string key: the column values, KeyError when
the label is absent. -/
def getColE (df : DF) (name : String) : Except String (List Val) :=
  match df.cols.find? (fun p => p.1 = name) with
  | some p => .ok p.2
  | none => .error ("KeyError: " ++ name)

/-- Source: `df[name] = v`: replace the values of an existing column in place
(keeping its position), or append a new column at the end. -/
def setCol (df : DF) (name : String) (v : List Val) : DF :=
  if df.cols.any (fun p => p.1 = name) then
    { df with cols := df.cols.map (fun p => if p.1 = name then (name, v) else p) }
  else
    { df with cols := df.cols ++ [(name, v)] }

/-- Source: `df[keys] = other`, a list key assigned a DataFrame value (here the
value is just the other frame's named columns): pandas checks that the key
has as many entries as the value has columns and then assigns the value's
columns to the key names positionally (`for k1, k2 in zip(key, value.columns):
self[k1] = value[k2]`). -/
def setItemList (df : DF) (keys : List String) (t : List (String × List Val)) :
    Except String DF :=
  if keys.length = t.length then
    .ok ((keys.zip t).foldl (fun acc kv => acc.setCol kv.1 kv.2.2) df)
  else
    .error "ValueError: Columns must be same length as key"

/-- Source: `df.drop(labels, inplace=True)` with the DEFAULT axis=0: the labels are
sought in the ROW index; a label not present raises KeyError, otherwise all
rows carrying one of the labels are removed.  (Dropping columns would need
axis=1, which the source's delete branch does not pass.) -/
def dropRows (df : DF) (labels : List Label) : Except String DF :=
  if labels.all (fun l => l ∈ df.index) then
    .ok { index := df.index.filter (fun l => l ∉ labels),
          cols := df.cols.map (fun p =>
            (p.1, ((df.index.zip p.2).filter (fun q => q.1 ∉ labels)).map Prod.snd)) }
  else
    .error "KeyError: not found in axis"

/-- Source: `df.drop(names, axis=1, inplace=True)`: drop columns by name, KeyError
when a name is absent (this is the form `TargetEncoder._fit` uses). -/
def dropColsE (df : DF) (names : List String) : Except String DF :=
  if names.all (fun n => df.cols.any (fun p => p.1 = n)) then
    .ok { df with cols := df.cols.filter (fun p => p.1 ∉ names) }
  else
    .error "KeyError: not found in axis"

/-- Source: `pd.concat([df, t], axis=1)`: append the new columns on the right. -/
def concatCols (df : DF) (t : List (String × List Val)) : DF :=
  { df with cols := df.cols ++ t }

end DF

/-- Set a key in a string-keyed association list (Python dict assignment
`d[k] = v`): overwrite in place when present, append otherwise. -/
def setAssoc (info : List (String × String)) (k v : String) : List (String × String) :=
  if info.any (fun p => p.1 = k) then
    info.map (fun p => if p.1 = k then (k, v) else p)
  else
    info ++ [(k, v)]

/-- The column registry `TabularData`: the value table `X` plus the
`data_info` column-id → semantic-type map (an association list standing
for the Python dict).  The derived caches (`cat_col`, `num_col`, ...,
refreshed by `refresh_col_types`) are recomputed on demand by
`select_columns`, so they are not stored. -/
structure TabularData where
  X : DF
  data_info : List (String × String)
deriving DecidableEq, Repr

namespace TabularData

/-- Source: `update_type`: retag `columns` with `new_type`.  The source guard
`if not new_type: return` makes the call a no-op when no type is given. -/
def update_type (info : List (String × String)) (columns : List String)
    (new_type : Option String) : List (String × String) :=
  match new_type with
  | none => info
  | some t => columns.foldl (fun acc c => setAssoc acc c t) info

/-- Source: `delete_type`: pop each column from the type map (missing keys are
ignored, `pop(c, 0)`). -/
def delete_type (info : List (String × String)) (columns : List String) :
    List (String × String) :=
  columns.foldl (fun acc c => acc.filter (fun p => p.1 ≠ c)) info

/-- Source: `TabularData.update(operation, columns, x_tr, new_type)`: the single
mutation primitive.  `upd` assigns `x_tr` into the named columns (when a
frame is supplied) and retags them; `add` concatenates the new columns and
tags THEIR names; `del` calls `X.drop(columns, inplace=True)` — with the
default axis, so the column names are looked up among the row labels — and
then pops the type entries; any other operation prints a message and is a
no-op. -/
def update (d : TabularData) (operation : String) (columns : List String)
    (x_tr : Option (List (String × List Val))) (new_type : Option String) :
    Except String TabularData :=
  if operation = "upd" then
    match x_tr with
    | some t => do
        let X ← d.X.setItemList columns t
        .ok { X := X, data_info := update_type d.data_info columns new_type }
    | none => .ok { X := d.X, data_info := update_type d.data_info columns new_type }
  else if operation = "add" then
    match x_tr with
    | some t =>
        .ok { X := d.X.concatCols t,
              data_info := update_type d.data_info (t.map Prod.fst) new_type }
    | none => .ok d
  else if operation = "del" then
    if columns ≠ [] then do
      let X ← d.X.dropRows (columns.map Label.s)
      .ok { X := X, data_info := delete_type d.data_info columns }
    else .ok d
  else
    .ok d

/-- Source: `select_columns(data_type)`: the ids currently tagged with the type,
all ids for the wildcard, empty (plus a printed message) for an unknown
type. -/
def select_columns (d : TabularData) (data_type : String) : List String :=
  if data_type = "CAT" then
    d.data_info.filterMap (fun p => if p.2 = "CAT" then some p.1 else none)
  else if data_type = "TIME" then
    d.data_info.filterMap (fun p => if p.2 = "TIME" then some p.1 else none)
  else if data_type = "NUM" then
    d.data_info.filterMap (fun p => if p.2 = "NUM" then some p.1 else none)
  else if data_type = "ALL" then
    d.data_info.map Prod.fst
  else
    []

end TabularData

/-! ## The Primitive fit/transform contract

`Primitive.fit` resolves the working column set from the registry once, by
declared type interest; an empty resolution skips the type-specific `_fit`
(`if not self.selected: return self`) and `transform` then returns the
dataset untouched (`if not self.selected: return data`).  The abstract
`_fit` / `_transform` methods become function fields. -/

/-- A concrete transformer seen through the base-class contract: its
declared type interest plus its `_fit` and `_transform` implementations.
`_fit` returns the learned parameters (stored on `self` in the source);
`_transform` consumes them. -/
structure Prim (α : Type) where
  selected_type : String
  fitImpl : List String → TabularData → α
  transformImpl : α → List String → TabularData → TabularData

/-- The post-fit state of a transformer: the resolved working column set
and the learned parameters (`none` when `_fit` was skipped because the
selection was empty). -/
structure PrimFitted (α : Type) where
  selected : List String
  params : Option α

/-- Source: `Primitive.fit(data, y)`: resolve `selected` from the registry; when it
is empty return immediately without learning, otherwise run `_fit`. -/
def Prim.fit {α : Type} (p : Prim α) (d : TabularData) : PrimFitted α :=
  let sel := d.select_columns p.selected_type
  if sel.isEmpty then { selected := sel, params := none }
  else { selected := sel, params := some (p.fitImpl sel d) }

/-- Source: `Primitive.transform(data, y)`: when the resolved selection is empty
return the dataset unchanged, otherwise run `_transform`.  (The
`selected` nonempty / `params` missing combination cannot be produced by
`Prim.fit`; it is mapped to the identity as well.) -/
def Prim.transform {α : Type} (p : Prim α) (f : PrimFitted α) (d : TabularData) :
    TabularData :=
  if f.selected.isEmpty then d
  else
    match f.params with
    | some a => p.transformImpl a f.selected d
    | none => d

/-! ## FilterConstant -/

/-- Fold computing the maximum of a list of rationals, `none` when empty. -/
def maxQfold (l : List ℚ) : Option ℚ :=
  l.foldl (fun acc x =>
    match acc with
    | none => some x
    | some m => some (if m ≤ x then x else m)) none

/-- Fold computing the minimum of a list of rationals, `none` when empty. -/
def minQfold (l : List ℚ) : Option ℚ :=
  l.foldl (fun acc x =>
    match acc with
    | none => some x
    | some m => some (if x ≤ m then x else m)) none

/-- Source: `column.max()` (pandas skips NaN; an all-NaN column has no maximum,
which pandas reports as NaN, modelled `none`). -/
def colMaxQ (v : List Val) : Val := maxQfold (v.filterMap id)

/-- Source: `column.min()`, likewise skipping NaN. -/
def colMinQ (v : List Val) : Val := minQfold (v.filterMap id)

/-- The per-column predicate of `FilterConstant._fit`:
`X.max(axis=0) - X.min(axis=0) == 0`.  When either side is NaN the
comparison with 0 is False, so the column is kept. -/
def zeroRange (v : List Val) : Bool :=
  match colMaxQ v, colMinQ v with
  | some a, some b => a - b = 0
  | _, _ => false

/-- Source: `FilterConstant._fit`: record the columns with zero range as the drop
set (`X.columns[(X.max(axis=0) - X.min(axis=0) == 0)].tolist()`). -/
def FilterConstant.fitDrop (df : DF) : List String :=
  (df.cols.filter (fun p => zeroRange p.2)).map Prod.fst

/-- Source: `FilterConstant._transform`: one `del` mutation with the recorded drop
set. -/
def FilterConstant.transform (drop_columns : List String) (d : TabularData) :
    Except String TabularData :=
  d.update "del" drop_columns none none

/-! ## Imputation -/

/-- Source: `Series.value_counts()`: occurrence counts of the distinct non-NaN
values (dropna=True is the pandas default). -/
def valueCounts (v : List Val) : List (ℚ × ℕ) :=
  (v.filterMap id).dedup.map (fun q => (q, (v.filterMap id).count q))

/-- Source: `value_counts.idxmax()`: a value attaining the maximal count (the
first such in the list; ties are unspecified in pandas as well), `none`
for an empty series. -/
def idxmaxAssoc (l : List (ℚ × ℕ)) : Option ℚ :=
  let m := (l.map Prod.snd).foldl max 0
  (l.find? (fun p => p.2 = m)).map Prod.fst

/-- Source: `Imputation._fit`: per selected column the most frequent value, with
fallback 0 when the column has no observed values. -/
def Imputation.fit (selected : List String) (df : DF) :
    Except String (List (String × ℚ)) :=
  selected.mapM (fun col => do
    let v ← df.getColE col
    let vc := valueCounts v
    pure (col, match idxmaxAssoc vc with | some k => k | none => 0))

/-- Source: `Series.fillna(q)`: replace the missing entries by `q` (returns a new
series; the source never assigns this result anywhere). -/
def fillna (v : List Val) (q : ℚ) : List Val :=
  v.map (fun x => match x with | none => some q | some a => some a)

/-- Python dict lookup `d[k]`: KeyError when the key is absent. -/
def lookupE (m : List (String × ℚ)) (k : String) : Except String ℚ :=
  match m.find? (fun p => p.1 = k) with
  | some p => .ok p.2
  | none => .error ("KeyError: " ++ k)

/-- Source: `Imputation._transform`: per selected column the source evaluates
`data.X[col].fillna(self.impute_dict[col])` and DISCARDS the result (no
assignment, no inplace flag), then issues
`data.update('upd', self.selected, None, new_type='NUM')`. -/
def Imputation.transform (impute_dict : List (String × ℚ)) (selected : List String)
    (d : TabularData) : Except String TabularData := do
  let _discarded ← selected.mapM (fun col => do
        let v ← d.X.getColE col
        let fill ← lookupE impute_dict col
        pure (fillna v fill))
  d.update "upd" selected none (some "NUM")

/-! ## TargetEncoder -/

/-- Mean of a list of rationals (`Series.mean()` over the observed
values; division by a zero length yields 0 in ℚ, matching the fact that
the source never consults the mean of an empty group: groupby only forms
groups for observed keys). -/
def meanQ (l : List ℚ) : ℚ := l.sum / l.length

/-- The (key, value) pairs `df.groupby(by)[on]` actually groups: rows
whose key is missing are dropped by groupby (pandas default). -/
def obsPairs (xs ys : List Val) : List (ℚ × Val) :=
  (xs.zip ys).filterMap (fun p => p.1.map (fun a => (a, p.2)))

/-- The observed `on`-values of the group keyed by `c` (`count` and
`mean` of the aggregation both skip missing values). -/
def groupLabels (xs ys : List Val) (c : ℚ) : List ℚ :=
  ((obsPairs xs ys).filter (fun p => p.1 = c)).filterMap Prod.snd

/-- Source: `df[on].mean()`: the global mean over the observed label values. -/
def globalMeanV (ys : List Val) : ℚ := meanQ (ys.filterMap id)

/-- One entry of the smoothed series:
`(counts * means + alpha * mean) / (counts + alpha)` for the group keyed
by `c`, where `counts`/`means` come from `agg(['count', 'mean'])` and
`mean` is the global label mean. -/
def smoothVal (xs ys : List Val) (alpha : ℚ) (c : ℚ) : ℚ :=
  (((groupLabels xs ys c).length : ℚ) * meanQ (groupLabels xs ys c) +
      alpha * globalMeanV ys) /
    (((groupLabels xs ys c).length : ℚ) + alpha)

/-- Source: `TargetEncoder.calc_smooth_mean(df, by, on, alpha)`: the mapping
category → smoothed mean over the group keys observed in the `by` column,
as an association list (the pandas Series indexed by the group keys). -/
def calc_smooth_mean (xs ys : List Val) (alpha : ℚ) : List (ℚ × ℚ) :=
  ((obsPairs xs ys).map Prod.fst).dedup.map (fun c => (c, smoothVal xs ys alpha c))

/-- Source: `Series.map(mapping)`: each value is looked up in the mapping; a value
absent from it (a category unseen at fit time) and a missing input both
map to NaN. -/
def seriesMap (v : List Val) (m : List (ℚ × ℚ)) : List Val :=
  v.map (fun x =>
    match x with
    | some q => (m.find? (fun p => p.1 = q)).map Prod.snd
    | none => none)

/-- Source: `TargetEncoder._fit(data, y)`: writes the label vector into the table
as a column named target (`X['target'] = y`), computes
`calc_smooth_mean(X, col, 'target', alpha=5)` for every selected column,
then drops the target column again (`X.drop('target', axis=1,
inplace=True)`) and returns the learned maps together with the dataset as
`_fit` leaves it. -/
def TargetEncoder.fit (selected : List String) (d : TabularData) (y : List Val) :
    Except String (List (String × List (ℚ × ℚ)) × TabularData) := do
  let X1 := d.X.setCol "target" y
  let maps ← selected.mapM (fun col => do
      let xs ← X1.getColE col
      let ys ← X1.getColE "target"
      pure (col, calc_smooth_mean xs ys 5))
  let X2 ← X1.dropColsE ["target"]
  pure (maps, { X := X2, data_info := d.data_info })

/-- Source: `TargetEncoder._transform`: map every selected column through its
learned encoding into a fresh frame and issue one `add` mutation tagged
NUM. -/
def TargetEncoder.transform (maps : List (String × List (ℚ × ℚ)))
    (selected : List String) (d : TabularData) : Except String TabularData := do
  let x_tr ← selected.mapM (fun col => do
      let v ← d.X.getColE col
      match maps.find? (fun p => p.1 = col) with
      | some p => pure (col, seriesMap v p.2)
      | none => Except.error ("KeyError: " ++ col))
  d.update "add" selected (some x_tr) (some "NUM")

/-! ## LogTransform

`np.square(np.log(1 + x))` is real-valued, so this transformer is
modelled on real-valued columns.  The pipeline constructs it as
`LogTransform(selected_type='NUM', operation='upd')`, so `_transform`
builds a frame of NEW names `log_<col>` and then hands it to the `upd`
branch, which assigns it positionally into the EXISTING selected
columns. -/

/-- A real-valued column. -/
abbrev RCol := String × List ℝ

/-- Source: `np.square(np.log(1 + x))`. -/
noncomputable def logsq (x : ℝ) : ℝ := (Real.log (1 + x)) ^ 2

/-- Source: `df[name] = v` on real-valued columns. -/
def setColR (cols : List RCol) (name : String) (v : List ℝ) : List RCol :=
  if cols.any (fun p => p.1 = name) then
    cols.map (fun p => if p.1 = name then (name, v) else p)
  else
    cols ++ [(name, v)]

/-- Source: `df[keys] = t` on real-valued columns: length check, then positional
assignment of the value frame's columns to the key names. -/
def setItemListR (cols : List RCol) (keys : List String) (t : List RCol) :
    Except String (List RCol) :=
  if keys.length = t.length then
    .ok ((keys.zip t).foldl (fun acc kv => setColR acc kv.1 kv.2.2) cols)
  else
    .error "ValueError: Columns must be same length as key"

/-- Column lookup on real-valued columns (`data.X[col]`); an absent name
would raise KeyError, modelled by an empty column (the transformer only
reads its selected, existing columns). -/
def getColR (cols : List RCol) (name : String) : List ℝ :=
  ((cols.find? (fun p => p.1 = name)).map Prod.snd).getD []

/-- Source: `LogTransform._transform` as the pipeline runs it (operation `upd`):
build the frame of prefixed columns `log_<col> := square(log(1+x))` and
issue the mutation.  With `upd` the frame is assigned into the existing
selected columns; no `log_` column is ever added to the table. -/
noncomputable def LogTransform.transformUpd (selected : List String)
    (cols : List RCol) : Except String (List RCol) :=
  let x_tr := selected.map (fun col => ("log_" ++ col, (getColR cols col).map logsq))
  setItemListR cols selected x_tr

/-! ## CatEncoder

`CatEncoder._fit` reads cells as `X[row_index, col_index]` where `X` is
the DataFrame itself: `DataFrame.__getitem__` receives the TUPLE
`(row_index, col_index)` and looks it up among the column labels.  To make
that lookup honest the column labels of this model are either plain
strings or such tuples. -/

/-- A pandas column label as `CatEncoder` can address it: an ordinary
string label, or the (row, column) tuple the subscript produces. -/
inductive PLabel where
  | str : String → PLabel
  | pair : ℤ → String → PLabel
deriving DecidableEq, Repr

/-- A DataFrame whose column labels may be tuples. -/
structure CDF where
  index : List Label
  cols : List (PLabel × List Val)
deriving DecidableEq, Repr

/-- Source: `X[key]` on a `CDF`: find the column whose label equals the key,
KeyError otherwise.  A frame built from a numpy array has only string
labels, so a tuple key never matches. -/
def CDF.getitem (df : CDF) (k : PLabel) : Except String (List Val) :=
  match df.cols.find? (fun p => p.1 = k) with
  | some p => .ok p.2
  | none => .error "KeyError"

/-- One column of `CatEncoder._fit`: walk the rows in order
(`for row_index in range(len(X))`), read `X[row_index, col_index]` and
give each first-seen key the next integer id.  The loop keys on the result
of the subscript lookup (the source stringifies it; string conversion is
injective on the reprs involved). -/
def CatEncoder.fitCol (df : CDF) (col : String) :
    Except String (List (List Val × ℕ)) :=
  (List.range df.index.length).foldlM
    (fun m r => do
      let key ← df.getitem (.pair (r : ℤ) col)
      if m.any (fun p => p.1 = key) then pure m else pure (m ++ [(key, m.length)]))
    []

/-- Source: `CatEncoder._fit`: build the per-column first-seen-order integer-id
maps. -/
def CatEncoder.fit (df : CDF) (selected : List String) :
    Except String (List (String × List (List Val × ℕ))) :=
  selected.mapM (fun col => do
    let m ← CatEncoder.fitCol df col
    pure (col, m))

/-- Decidable equality for `Except`, so concrete runs of the embedded
operations can be checked by `decide`. -/
instance {ε α : Type} [DecidableEq ε] [DecidableEq α] : DecidableEq (Except ε α) := fun x y =>
  match x, y with
  | .error a, .error b =>
      if h : a = b then .isTrue (by rw [h])
      else .isFalse (by intro hc; cases hc; exact h rfl)
  | .error _, .ok _ => .isFalse (by intro hc; cases hc)
  | .ok _, .error _ => .isFalse (by intro hc; cases hc)
  | .ok a, .ok b =>
      if h : a = b then .isTrue (by rw [h])
      else .isFalse (by intro hc; cases hc; exact h rfl)

/-- Helper instances so equality of `CatEncoder` fit results stays within
the default instance-search limits. -/
instance : DecidableEq (List (List Val × ℕ)) := inferInstance

instance : DecidableEq (String × List (List Val × ℕ)) := inferInstance

instance : DecidableEq (List (String × List (List Val × ℕ))) := inferInstance

/-! ## The registry invariant and concrete tables used as test inputs -/

/-- The registry invariant stated by the spec: the set of ids with an
entry in the type map equals exactly the set of columns currently in the
table. -/
def InvTD (d : TabularData) : Prop :=
  ∀ c, c ∈ d.X.colNames ↔ c ∈ d.data_info.map Prod.fst

/-- A two-row numeric table whose column "1" is constant (the input that
exercises the filter stages): the frame a numpy array produces, with an
integer RangeIndex. -/
def tdConst : TabularData :=
  { X := { index := [Label.i 0, Label.i 1],
           cols := [("0", [some 1, some 2]), ("1", [some 5, some 5])] },
    data_info := [("0", "NUM"), ("1", "NUM")] }

/-- A three-column table: column "0" non-constant, column "1" constant,
column "2" non-constant. -/
def tdThree : TabularData :=
  { X := { index := [Label.i 0, Label.i 1],
           cols := [("0", [some 1, some 2]), ("1", [some 5, some 5]),
                    ("2", [some 3, some 4])] },
    data_info := [("0", "NUM"), ("1", "NUM"), ("2", "NUM")] }

/-- A one-row table with a single categorical column. -/
def tdCat : TabularData :=
  { X := { index := [Label.i 0], cols := [("0", [some 3])] },
    data_info := [("0", "CAT")] }

/-- A three-row table whose single column has a missing first entry and
most-frequent value 1. -/
def tdMiss : TabularData :=
  { X := { index := [Label.i 0, Label.i 1, Label.i 2],
           cols := [("0", [none, some 1, some 1])] },
    data_info := [("0", "NUM")] }

/-- A one-row, one-column numeric table. -/
def tdOne : TabularData :=
  { X := { index := [Label.i 0], cols := [("0", [some 1])] },
    data_info := [("0", "NUM")] }

/-- A two-row table with a categorical and a numeric column (the input
used to exercise `TargetEncoder._fit`). -/
def tdCatNum : TabularData :=
  { X := { index := [Label.i 0, Label.i 1],
           cols := [("0", [some 1, some 1]), ("1", [some 4, some 5])] },
    data_info := [("0", "CAT"), ("1", "NUM")] }

/-- The tuple-labelled view of a one-row table with one categorical
column "0", as `CatEncoder` sees it. -/
def cdfOne : CDF :=
  { index := [Label.i 0], cols := [(PLabel.str "0", [some 3])] }

/-- The registry state produced by an ADD mutation that supplies no type
tag: the table has gained column "1" but the type map has not. -/
def tdBroken : TabularData :=
  { X := { index := [Label.i 0], cols := [("0", [some 1]), ("1", [some 2])] },
    data_info := [("0", "NUM")] }

/-- A transformer used to witness the fit-trivial contract: it declares a
categorical interest and its `_transform` would replace the dataset
wholesale, so any observable effect of a transform call is visible. -/
def primCatProbe : Prim Unit :=
  { selected_type := "CAT",
    fitImpl := fun _ _ => (),
    transformImpl := fun _ _ _ => tdConst }

/-! ## Association-list and column-name membership lemmas -/

theorem setAssoc_keys_mem (info : List (String × String)) (k v c : String) :
    c ∈ (setAssoc info k v).map Prod.fst ↔ c ∈ info.map Prod.fst ∨ c = k := by
  unfold setAssoc
  by_cases h : info.any (fun p => p.1 = k) = true
  · simp only [h, if_true, List.map_map]
    have hmap : info.map (Prod.fst ∘ fun p => if p.1 = k then (k, v) else p) =
        info.map Prod.fst := by
      apply List.map_congr_left
      intro p _
      by_cases hpk : p.1 = k
      · simp [hpk]
      · simp [hpk]
    rw [hmap]
    have hk : k ∈ info.map Prod.fst := by
      rcases List.any_eq_true.mp h with ⟨p, hp, hpk⟩
      exact List.mem_map.mpr ⟨p, hp, by simpa using hpk⟩
    constructor
    · exact Or.inl
    · rintro (hc | rfl)
      · exact hc
      · exact hk
  · simp only [h, if_false, List.map_append, List.mem_append]
    simp

theorem update_type_keys_mem (cols : List String) (info : List (String × String))
    (t c : String) :
    c ∈ (TabularData.update_type info cols (some t)).map Prod.fst ↔
      c ∈ info.map Prod.fst ∨ c ∈ cols := by
  induction cols generalizing info with
  | nil => simp [TabularData.update_type]
  | cons a cols ih =>
      show c ∈ (TabularData.update_type (setAssoc info a t) cols (some t)).map Prod.fst ↔ _
      rw [ih, setAssoc_keys_mem]
      constructor
      · rintro ((hc | rfl) | hc)
        · exact Or.inl hc
        · exact Or.inr (List.mem_cons_self _ _)
        · exact Or.inr (List.mem_cons_of_mem _ hc)
      · rintro (hc | hc)
        · exact Or.inl (Or.inl hc)
        · rcases List.mem_cons.mp hc with rfl | hc
          · exact Or.inl (Or.inr rfl)
          · exact Or.inr hc

theorem setCol_names_mem (df : DF) (k : String) (v : List Val) (c : String) :
    c ∈ (df.setCol k v).colNames ↔ c ∈ df.colNames ∨ c = k := by
  unfold DF.setCol DF.colNames
  by_cases h : df.cols.any (fun p => p.1 = k) = true
  · simp only [h, if_true, List.map_map]
    have hmap : df.cols.map (Prod.fst ∘ fun p => if p.1 = k then (k, v) else p) =
        df.cols.map Prod.fst := by
      apply List.map_congr_left
      intro p _
      by_cases hpk : p.1 = k
      · simp [hpk]
      · simp [hpk]
    rw [hmap]
    have hk : k ∈ df.cols.map Prod.fst := by
      rcases List.any_eq_true.mp h with ⟨p, hp, hpk⟩
      exact List.mem_map.mpr ⟨p, hp, by simpa using hpk⟩
    constructor
    · exact Or.inl
    · rintro (hc | rfl)
      · exact hc
      · exact hk
  · simp only [h, if_false, List.map_append, List.mem_append]
    simp

theorem setFold_names_mem (l : List (String × (String × List Val))) (df : DF)
    (c : String) :
    c ∈ (l.foldl (fun acc kv => acc.setCol kv.1 kv.2.2) df).colNames ↔
      c ∈ df.colNames ∨ c ∈ l.map Prod.fst := by
  induction l generalizing df with
  | nil => simp
  | cons a l ih =>
      show c ∈ (l.foldl _ (df.setCol a.1 a.2.2)).colNames ↔ _
      rw [ih, setCol_names_mem]
      constructor
      · rintro ((hc | rfl) | hc)
        · exact Or.inl hc
        · exact Or.inr (by simp)
        · exact Or.inr (by simp [hc])
      · rintro (hc | hc)
        · exact Or.inl (Or.inl hc)
        · rcases List.mem_cons.mp hc with h1 | h1
          · exact Or.inl (Or.inr h1)
          · exact Or.inr h1

/-! ## Lookup lemmas for the target-encoding map -/

theorem find_map_pair_mem (l : List ℚ) (g : ℚ → ℚ) (c : ℚ) (hc : c ∈ l) :
    (l.map (fun x => (x, g x))).find? (fun p => p.1 = c) = some (c, g c) := by
  induction l with
  | nil => cases hc
  | cons a l ih =>
      by_cases hac : a = c
      · subst hac
        simp [List.find?_cons]
      · rcases List.mem_cons.mp hc with rfl | hc2
        · exact absurd rfl hac
        · simp only [List.map_cons, List.find?_cons]
          have : (decide ((a, g a).1 = c)) = false := by
            simp [hac]
          rw [this]
          exact ih hc2

theorem find_map_pair_not_mem (l : List ℚ) (g : ℚ → ℚ) (c : ℚ) (hc : c ∉ l) :
    (l.map (fun x => (x, g x))).find? (fun p => p.1 = c) = none := by
  induction l with
  | nil => simp
  | cons a l ih =>
      have hac : a ≠ c := fun h => hc (by simp [h])
      have hc2 : c ∉ l := fun h => hc (List.mem_cons_of_mem _ h)
      simp only [List.map_cons, List.find?_cons]
      have : (decide ((a, g a).1 = c)) = false := by simp [hac]
      rw [this]
      exact ih hc2

theorem mem_obsKeys (xs ys : List Val) (c : ℚ) (hlen : xs.length = ys.length)
    (hc : some c ∈ xs) : c ∈ (obsPairs xs ys).map Prod.fst := by
  induction xs generalizing ys with
  | nil => cases hc
  | cons a xs ih =>
      cases ys with
      | nil => cases hlen
      | cons b ys =>
          have hlen2 : xs.length = ys.length := by simpa using hlen
          rcases List.mem_cons.mp hc with ha | hc2
          · simp [obsPairs, ← ha]
          · have := ih ys hlen2 hc2
            cases a with
            | none => exact this
            | some v => exact List.mem_cons_of_mem _ this

theorem obsKeys_mem_some (xs ys : List Val) (c : ℚ)
    (hc : c ∈ (obsPairs xs ys).map Prod.fst) : some c ∈ xs := by
  rcases List.mem_map.mp hc with ⟨p, hp, hfst⟩
  rcases List.mem_filterMap.mp hp with ⟨q, hq, hform⟩
  rcases q with ⟨x, y⟩
  cases x with
  | none => simp at hform
  | some v =>
      have hform2 : some (v, y) = some p := hform
      have hp : p = (v, y) := (Option.some.inj hform2).symm
      have hv : v = c := by
        rw [hp] at hfst
        exact hfst
      have hx : some v ∈ xs := (List.of_mem_zip hq).1
      rw [hv] at hx
      exact hx

/-! ## A helper for destructuring successful Except binds -/

theorem except_bind_ok {ε α β : Type} {e : Except ε α} {f : α → Except ε β} {b : β}
    (h : (e >>= f) = .ok b) : ∃ a, e = .ok a ∧ f a = .ok b := by
  cases e with
  | error err =>
      exfalso
      have : (Except.error err : Except ε α) >>= f = .error err := rfl
      rw [this] at h
      cases h
  | ok a =>
      refine ⟨a, rfl, ?_⟩
      have : (Except.ok a : Except ε α) >>= f = f a := rfl
      rw [this] at h
      exact h

/-! ## Claim theorems -/

/-- C1: the claim says every Registry mutation — in particular the DELETE
operation the three filter stages use — removes columns only and never
changes the row count, so `transform` preserves the row count.  The code
instead calls `X.drop(columns, inplace=True)` without `axis=1`: the column
names are looked up in the ROW index, and on any table built from a numpy
array (whose row labels are the integers of the default RangeIndex) a
nonempty DELETE always raises KeyError instead of removing the columns. -/
theorem c1_delete_never_removes_columns (d : TabularData) (cols : List String)
    (hidx : ∀ l ∈ d.X.index, ∃ n, l = Label.i n) (hne : cols ≠ []) :
    d.update "del" cols none none = .error "KeyError: not found in axis" := by
  have hall : ((cols.map Label.s).all (fun l => l ∈ d.X.index)) = false := by
    rcases cols with _ | ⟨c, cs⟩
    · exact absurd rfl hne
    · rw [List.all_eq_false]
      refine ⟨Label.s c, by simp, ?_⟩
      simp only [decide_eq_true_eq]
      intro hmem
      rcases hidx _ hmem with ⟨n, hn⟩
      cases hn
  unfold TabularData.update DF.dropRows
  rw [if_neg (by decide), if_neg (by decide), if_pos rfl, if_pos hne, hall]
  rfl

/-- Witness for C1 at a concrete input: the two-row table whose column "1"
is constant; deleting `["1"]` fails with KeyError. -/
theorem c1_delete_never_removes_columns_witness :
    (∀ l ∈ tdConst.X.index, ∃ n, l = Label.i n) ∧ (["1"] : List String) ≠ [] ∧
      tdConst.update "del" ["1"] none none = .error "KeyError: not found in axis" := by
  have hidx : ∀ l ∈ tdConst.X.index, ∃ n, l = Label.i n := by
    intro l hl
    rcases List.mem_cons.mp hl with rfl | hl2
    · exact ⟨0, rfl⟩
    · rcases List.mem_cons.mp hl2 with rfl | hl3
      · exact ⟨1, rfl⟩
      · cases hl3
  exact ⟨hidx, by decide,
    c1_delete_never_removes_columns tdConst ["1"] hidx (by decide)⟩

/-- C3: the claim says Imputation's transform leaves every selected
column's type tag unchanged.  The code issues
`data.update('upd', self.selected, None, new_type='NUM')`, which retags
every selected column (the selection is ALL) to NUM: on a table whose one
column is tagged CAT, the tag is NUM after the transform. -/
theorem c3_imputation_retags_every_column_to_num :
    tdCat.select_columns "ALL" = ["0"] ∧
    tdCat.data_info = [("0", "CAT")] ∧
    Imputation.fit ["0"] tdCat.X = .ok [("0", 3)] ∧
    Imputation.transform [("0", 3)] ["0"] tdCat =
      .ok { X := tdCat.X, data_info := [("0", "NUM")] } := by
  decide

/-- C4: the claim says every missing entry is filled with the learned
most-frequent value and the fill is persisted into the table.  The code
computes `data.X[col].fillna(self.impute_dict[col])` but never assigns the
result (and the subsequent update passes `x_tr=None`), so the table the
pipeline passes on still contains the missing entry: on the column
`[NaN, 1, 1]` the learned value is 1 yet the transform returns the table
with the NaN intact. -/
theorem c4_imputation_fill_never_persisted :
    Imputation.fit ["0"] tdMiss.X = .ok [("0", 1)] ∧
    Imputation.transform [("0", 1)] ["0"] tdMiss =
      .ok { X := tdMiss.X, data_info := [("0", "NUM")] } ∧
    tdMiss.X.getColE "0" = .ok [none, some 1, some 1] := by
  decide

/-- C6: the claim says FilterConstant removes exactly the zero-range
columns.  The fitted drop set is indeed exactly the zero-range columns
(here `["1"]` out of three columns), but the transform's DELETE mutation
hits the missing-axis bug of C1 and raises KeyError instead of removing
the column. -/
theorem c6_filterconstant_fit_exact_but_delete_fails :
    FilterConstant.fitDrop tdThree.X = ["1"] ∧
    FilterConstant.transform ["1"] tdThree = .error "KeyError: not found in axis" := by
  constructor
  · norm_num [FilterConstant.fitDrop, tdThree, zeroRange, colMaxQ, colMinQ, maxQfold,
      minQfold, List.filterMap_cons, List.filter_cons]
  · decide

/-- C8: the claim says a fitted CatEncoder yields the same integer code
for each seen category on every transform call.  `CatEncoder._fit` can
never produce those codes: it reads cells as `X[row_index, col_index]`,
which hands the tuple to `DataFrame.__getitem__` as a COLUMN label; the
labels are strings, so the very first row access raises KeyError and no
label map is ever learned. -/
theorem c8_catencoder_fit_raises_keyerror :
    cdfOne.index.length = 1 ∧
    CatEncoder.fit cdfOne ["0"] = .error "KeyError" := by
  decide

/-- C2 counterexample: the claim asserts the type-map/columns invariant
after EVERY mutate operation.  An ADD whose `new_type` is `None` falls
into the `if not new_type: return` guard of `update_type`: the column is
concatenated into the table but never tagged, so the two key sets differ
after the operation. -/
theorem c2_add_without_type_breaks_invariant :
    tdOne.update "add" [] (some [("1", [some 2])]) none = .ok tdBroken ∧
      ¬ InvTD tdBroken := by
  constructor
  · decide
  · intro h
    have h1 : ("1" : String) ∈ tdBroken.X.colNames := by decide
    have h2 := (h "1").mp h1
    exact absurd h2 (by decide)

/-- C9: a transformer whose working column set, resolved at fit time from
its declared type interest, is empty (including the unknown-type case,
where `select_columns` returns empty) never reaches `_transform`: every
subsequent transform call returns the dataset it was given, unchanged. -/
theorem c9_fit_trivial_transform_is_identity {α : Type} (p : Prim α)
    (d d2 : TabularData) (h : (p.fit d).selected = []) :
    p.transform (p.fit d) d2 = d2 := by
  unfold Prim.transform
  rw [h]
  rfl

/-- Witness for C9: a categorically interested probe transformer fitted on
a table with only a NUM column resolves an empty selection, and its
transform leaves a different dataset untouched even though its
`_transform` would replace the dataset wholesale. -/
theorem c9_fit_trivial_transform_is_identity_witness :
    (primCatProbe.fit tdOne).selected = [] ∧
      primCatProbe.transform (primCatProbe.fit tdOne) tdMiss = tdMiss :=
  ⟨rfl, c9_fit_trivial_transform_is_identity primCatProbe tdOne tdMiss rfl⟩

/-- C5: the claim says LogTransform appends a new prefixed `log_` column
holding `square(log(1+x))` via an ADD mutation and leaves the original
numeric columns unchanged.  The pipeline constructs the stage with
`operation='upd'`, so the frame of prefixed columns is assigned INTO the
existing selected columns: on the one-column table `[1]` the result still
has exactly the column "0" (no `log_0` column exists anywhere), and its
value has been overwritten by `square(log 2)`, which differs from the
original value 1. -/
theorem c5_logtransform_upd_overwrites_instead_of_appending :
    LogTransform.transformUpd ["0"] [("0", [(1 : ℝ)])] =
      .ok [("0", [(Real.log 2) ^ 2])] ∧
    (Real.log 2) ^ 2 ≠ (1 : ℝ) := by
  constructor
  · have h1 : LogTransform.transformUpd ["0"] [("0", [(1 : ℝ)])] =
        .ok [("0", [logsq 1])] := rfl
    have h2 : logsq 1 = (Real.log 2) ^ 2 := by
      unfold logsq
      norm_num
    rw [h1, h2]
  · have hpos : 0 < Real.log 2 := Real.log_pos (by norm_num)
    have hlt : Real.log 2 < 0.6931471808 := Real.log_two_lt_d9
    have : (Real.log 2) ^ 2 < 1 := by nlinarith
    exact ne_of_lt this

/-- C7: for every category `c` observed in the fit column (with the label
vector as long as the column), the value `calc_smooth_mean` learns for `c`
is `(n*m + 5*g)/(n + 5)` where `n` is the group's label count, `m` the
group's label mean and `g` the global label mean (the α=5 smoothing the
spec states); and a category `u` unseen at fit time is mapped by the
transform-time `Series.map` to the missing sentinel. -/
theorem c7_target_encoder_smoothing (xs ys : List Val) (c u : ℚ)
    (hlen : xs.length = ys.length) (hc : some c ∈ xs) (hu : some u ∉ xs) :
    (calc_smooth_mean xs ys 5).find? (fun p => p.1 = c) =
      some (c, (((groupLabels xs ys c).length : ℚ) * meanQ (groupLabels xs ys c) +
                5 * globalMeanV ys) / (((groupLabels xs ys c).length : ℚ) + 5)) ∧
    seriesMap [some u] (calc_smooth_mean xs ys 5) = [none] := by
  constructor
  · have hmem : c ∈ ((obsPairs xs ys).map Prod.fst).dedup :=
      List.mem_dedup.mpr (mem_obsKeys xs ys c hlen hc)
    exact find_map_pair_mem _ (smoothVal xs ys 5) c hmem
  · have hkeys : u ∉ ((obsPairs xs ys).map Prod.fst).dedup := by
      intro h
      exact hu (obsKeys_mem_some xs ys u (List.mem_dedup.mp h))
    have hfind : (calc_smooth_mean xs ys 5).find? (fun p => p.1 = u) = none :=
      find_map_pair_not_mem _ (smoothVal xs ys 5) u hkeys
    simp [seriesMap, hfind]

/-- Witness for C7: the column `[1, 1, 2]` with labels `[10, 20, 30]`;
category 1 is observed (count 2, mean 15, global mean 20) and category 7
is unseen. -/
theorem c7_target_encoder_smoothing_witness :
    ([some 1, some 1, some 2] : List Val).length =
        ([some 10, some 20, some 30] : List Val).length ∧
    some (1 : ℚ) ∈ ([some 1, some 1, some 2] : List Val) ∧
    some (7 : ℚ) ∉ ([some 1, some 1, some 2] : List Val) ∧
    ((calc_smooth_mean [some 1, some 1, some 2] [some 10, some 20, some 30] 5).find?
        (fun p => p.1 = 1) =
      some (1, (((groupLabels [some 1, some 1, some 2] [some 10, some 20, some 30] 1).length : ℚ) *
            meanQ (groupLabels [some 1, some 1, some 2] [some 10, some 20, some 30] 1) +
            5 * globalMeanV [some 10, some 20, some 30]) /
          (((groupLabels [some 1, some 1, some 2] [some 10, some 20, some 30] 1).length : ℚ) + 5)) ∧
      seriesMap [some 7]
          (calc_smooth_mean [some 1, some 1, some 2] [some 10, some 20, some 30] 5) =
        [none]) :=
  ⟨by decide, by decide, by decide,
    c7_target_encoder_smoothing [some 1, some 1, some 2] [some 10, some 20, some 30] 1 7
      (by decide) (by decide) (by decide)⟩

/-- C10: on a dataset whose table has no column named "target",
`TargetEncoder._fit` computes its per-category aggregates by temporarily
inserting the label column "target", and drops it before returning: the
dataset it hands back has exactly the original columns, values and type
map. -/
theorem c10_target_fit_leaves_dataset_unchanged (selected : List String)
    (d : TabularData) (y : List Val) (maps : List (String × List (ℚ × ℚ)))
    (d2 : TabularData) (htarget : "target" ∉ d.X.colNames)
    (hfit : TargetEncoder.fit selected d y = .ok (maps, d2)) :
    d2 = d := by
  have hany : (d.X.cols.any (fun p => p.1 = "target")) = false := by
    rw [List.any_eq_false]
    intro p hp
    simp only [decide_eq_true_eq]
    intro hpt
    exact htarget (List.mem_map.mpr ⟨p, hp, hpt⟩)
  have hX1 : d.X.setCol "target" y =
      DF.mk d.X.index (d.X.cols ++ [("target", y)]) := by
    unfold DF.setCol
    rw [hany]
    rfl
  have hdrop : (DF.mk d.X.index (d.X.cols ++ [("target", y)])).dropColsE ["target"] =
      .ok d.X := by
    unfold DF.dropColsE
    have hcond : ((["target"] : List String).all (fun n =>
        (d.X.cols ++ [("target", y)]).any (fun p => p.1 = n))) = true := by
      simp
    rw [hcond]
    have h1 : d.X.cols.filter (fun p => p.1 ∉ (["target"] : List String)) = d.X.cols := by
      rw [List.filter_eq_self]
      intro p hp
      have hne : p.1 ≠ "target" := by
        intro hpt
        exact htarget (List.mem_map.mpr ⟨p, hp, hpt⟩)
      simp [hne]
    have h2 : ([(("target" : String), y)]).filter
        (fun p => p.1 ∉ (["target"] : List String)) = [] := by
      simp
    simp only [if_true, List.filter_append, h1, h2, List.append_nil]
  unfold TargetEncoder.fit at hfit
  rw [hX1] at hfit
  obtain ⟨m, _hm, hrest⟩ := except_bind_ok hfit
  obtain ⟨X2, hX2, hpure⟩ := except_bind_ok hrest
  rw [hdrop] at hX2
  have hX2eq : d.X = X2 := Except.ok.inj hX2
  have h5 : (m, TabularData.mk X2 d.data_info) = (maps, d2) := Except.ok.inj hpure
  have hd2 : TabularData.mk X2 d.data_info = d2 := congrArg Prod.snd h5
  rw [← hd2, ← hX2eq]

/-- Witness for C10: fitting on the two-column table with an empty
selection and a two-entry label vector returns the dataset unchanged. -/
theorem c10_target_fit_leaves_dataset_unchanged_witness :
    ("target" ∉ tdCatNum.X.colNames) ∧
    TargetEncoder.fit [] tdCatNum [some 0, some 1] = .ok ([], tdCatNum) ∧
    tdCatNum = tdCatNum :=
  ⟨by decide, by decide,
    c10_target_fit_leaves_dataset_unchanged [] tdCatNum [some 0, some 1] [] tdCatNum
      (by decide) (by decide)⟩

theorem concat_names_mem (df : DF) (t : List (String × List Val)) (c : String) :
    c ∈ (df.concatCols t).colNames ↔ c ∈ df.colNames ∨ c ∈ t.map Prod.fst := by
  simp [DF.concatCols, DF.colNames]

/-- C2 (amended): the type-map/columns invariant is preserved by every
completed mutation, provided an UPDATE either supplies both a value frame
and a type tag or touches only existing columns, an ADD supplies a type
tag, and a DELETE has an empty column list (a nonempty DELETE never
completes on integer-indexed tables, see C1; an ADD or column-creating
UPDATE without a tag breaks the invariant, see the counterexample). -/
theorem c2_invariant_preserved_amended
    (d d2 : TabularData) (op : String) (cols : List String)
    (x_tr : Option (List (String × List Val))) (ty : Option String)
    (hInv : InvTD d)
    (hok : d.update op cols x_tr ty = .ok d2)
    (hupd : op = "upd" → ((ty.isSome ∧ x_tr.isSome) ∨ ∀ c ∈ cols, c ∈ d.X.colNames))
    (hadd : op = "add" → ty.isSome)
    (hdel : op = "del" → cols = []) :
    InvTD d2 := by
  by_cases h1 : op = "upd"
  · subst h1
    unfold TabularData.update at hok
    rw [if_pos rfl] at hok
    cases x_tr with
    | none =>
        have hd2 : TabularData.mk d.X (TabularData.update_type d.data_info cols ty) =
            d2 := Except.ok.inj hok
        cases ty with
        | none =>
            rw [← hd2]
            exact fun c => (hInv c)
        | some t =>
            rcases hupd rfl with ⟨_, hxs⟩ | hsub
            · cases hxs
            · intro c
              rw [← hd2]
              show c ∈ d.X.colNames ↔
                c ∈ (TabularData.update_type d.data_info cols (some t)).map Prod.fst
              rw [update_type_keys_mem]
              constructor
              · exact fun hc => Or.inl ((hInv c).mp hc)
              · rintro (hc | hc)
                · exact (hInv c).mpr hc
                · exact hsub c hc
    | some t =>
        obtain ⟨X, hset, hpure⟩ := except_bind_ok hok
        rw [DF.setItemList] at hset
        by_cases hlen : cols.length = t.length
        · rw [if_pos hlen] at hset
          have hX : ((cols.zip t).foldl (fun acc kv => acc.setCol kv.1 kv.2.2) d.X) =
              X := Except.ok.inj hset
          have hd2 : TabularData.mk X (TabularData.update_type d.data_info cols ty) =
              d2 := Except.ok.inj hpure
          have hzip : (cols.zip t).map Prod.fst = cols :=
            List.map_fst_zip cols t (le_of_eq hlen)
          intro c
          rw [← hd2]
          show c ∈ X.colNames ↔ _
          rw [← hX, setFold_names_mem, hzip]
          rcases hupd rfl with ⟨hty, _⟩ | hsub
          · rcases Option.isSome_iff_exists.mp hty with ⟨t2, rfl⟩
            show _ ↔ c ∈ (TabularData.update_type d.data_info cols (some t2)).map Prod.fst
            rw [update_type_keys_mem]
            constructor
            · rintro (hc | hc)
              · exact Or.inl ((hInv c).mp hc)
              · exact Or.inr hc
            · rintro (hc | hc)
              · exact Or.inl ((hInv c).mpr hc)
              · exact Or.inr hc
          · cases ty with
            | none =>
                show _ ↔ c ∈ d.data_info.map Prod.fst
                constructor
                · rintro (hc | hc)
                  · exact (hInv c).mp hc
                  · exact (hInv c).mp (hsub c hc)
                · exact fun hc => Or.inl ((hInv c).mpr hc)
            | some t2 =>
                show _ ↔ c ∈ (TabularData.update_type d.data_info cols (some t2)).map Prod.fst
                rw [update_type_keys_mem]
                constructor
                · rintro (hc | hc)
                  · exact Or.inl ((hInv c).mp hc)
                  · exact Or.inr hc
                · rintro (hc | hc)
                  · exact Or.inl ((hInv c).mpr hc)
                  · exact Or.inr hc
        · rw [if_neg hlen] at hset
          cases hset
  · by_cases h2 : op = "add"
    · subst h2
      unfold TabularData.update at hok
      rw [if_neg (by decide), if_pos rfl] at hok
      cases x_tr with
      | none =>
          have hd2 : d = d2 := Except.ok.inj hok
          rw [← hd2]
          exact hInv
      | some t =>
          rcases Option.isSome_iff_exists.mp (hadd rfl) with ⟨t2, rfl⟩
          have hd2 : TabularData.mk (d.X.concatCols t)
              (TabularData.update_type d.data_info (t.map Prod.fst) (some t2)) =
              d2 := Except.ok.inj hok
          intro c
          rw [← hd2]
          show c ∈ (d.X.concatCols t).colNames ↔
            c ∈ (TabularData.update_type d.data_info (t.map Prod.fst)
              (some t2)).map Prod.fst
          rw [concat_names_mem, update_type_keys_mem]
          constructor
          · rintro (hc | hc)
            · exact Or.inl ((hInv c).mp hc)
            · exact Or.inr hc
          · rintro (hc | hc)
            · exact Or.inl ((hInv c).mpr hc)
            · exact Or.inr hc
    · by_cases h3 : op = "del"
      · subst h3
        have hcols : cols = [] := hdel rfl
        subst hcols
        unfold TabularData.update at hok
        rw [if_neg (by decide), if_neg (by decide), if_pos rfl,
          if_neg (by simp)] at hok
        have hd2 : d = d2 := Except.ok.inj hok
        rw [← hd2]
        exact hInv
      · unfold TabularData.update at hok
        rw [if_neg h1, if_neg h2, if_neg h3] at hok
        have hd2 : d = d2 := Except.ok.inj hok
        rw [← hd2]
        exact hInv

/-- Witness for C2 (amended): an ADD that supplies the NUM tag on the
one-column table preserves the invariant. -/
theorem c2_invariant_preserved_amended_witness :
    InvTD tdOne ∧
    tdOne.update "add" [] (some [("1", [some 2])]) (some "NUM") =
      .ok { X := { index := [Label.i 0], cols := [("0", [some 1]), ("1", [some 2])] },
            data_info := [("0", "NUM"), ("1", "NUM")] } ∧
    InvTD { X := { index := [Label.i 0], cols := [("0", [some 1]), ("1", [some 2])] },
            data_info := [("0", "NUM"), ("1", "NUM")] } := by
  refine ⟨fun c => Iff.rfl, by decide, ?_⟩
  exact c2_invariant_preserved_amended tdOne _ "add" []
    (some [("1", [some 2])]) (some "NUM") (fun c => Iff.rfl) (by decide)
    (by intro h; exact absurd h (by decide)) (by intro _; rfl)
    (by intro h; exact absurd h (by decide))
